import Mathlib

/-!
# AeroShield claim lifecycle and pool accounting: a verified shallow embedding

This file embeds the core of the AeroShield flight-delay insurance backend
(`backend/services/insurance/claims_engine.py`,
`backend/services/insurance/pool_manager.py`,
`backend/services/blockchain/fdc_client.py`,
`backend/api/v1/triggers.py`, `backend/api/v1/claims.py`) in Lean 4 and
proves the testable properties of the specification against it.

Modelling conventions:
* Python `Decimal` amounts become `ℚ` (addition, subtraction and comparison
  on `Decimal` are exact; the one division in the utilization rate is
  idealized as exact rational division).
* Integers (delay minutes, thresholds) become `ℤ`; counters become `ℕ`;
  timestamps become `ℕ` supplied by the environment.
* The database session is a record of lists of rows.  ORM object mutation
  followed by `flush` is in-place update of the row with the same primary
  key; `db.add` is list append; a SQL `UPDATE ... WHERE id = x` maps the
  rows with matching id.
* A raising Python function becomes
  `Except (AppError × DB) (DB × α)`: the error branch carries the session
  state at the moment the exception was raised (the code performs no
  rollback inside these functions), so "no mutation on failure" is a real
  statement about where each `raise` sits relative to the writes.
* External effects (the FDC oracle round-trip, the FTSO price feed, random
  claim-number generation, clock reads) are passed in as explicit
  environment values, mirroring exactly which call sites can fail.
* Only the record fields read or written by the embedded operations are
  modelled; opaque blobs (raw JSON payloads, merkle proof bodies stored but
  never inspected) are reduced to the projections the code actually uses.
-/

namespace AeroShield

/-- `models/policy.py` `PolicyStatus`. -/
inductive PolicyStatus
  | pending
  | active
  | expired
  | claimed
  | cancelled
  | payoutPending
  | paid
deriving DecidableEq, Repr

/-- `models/claim.py` `ClaimStatus`. -/
inductive ClaimStatus
  | initiated
  | verifying
  | approved
  | rejected
  | processing
  | paid
  | failed
deriving DecidableEq, Repr

/-- `models/policy.py` `Policy`: the fields read or written by the claims
engine, the pool manager and the trigger endpoints. -/
structure Policy where
  id : ℕ
  user_id : ℕ
  status : PolicyStatus
  flight_number : String := ""
  airline_code : String := ""
  coverage_amount : ℚ
  premium_amount : ℚ := 0
  currency : String := "USDT"
  delay_threshold_minutes : ℤ := 120
  payout_amount : Option ℚ := none
  payout_address : Option String := none
  paid_at : Option ℕ := none
deriving DecidableEq, Repr

/-- `models/claim.py` `Claim`: the fields read or written by the embedded
operations. -/
structure Claim where
  id : ℕ
  claim_number : String
  user_id : ℕ
  policy_id : ℕ
  status : ClaimStatus
  trigger_event : String := ""
  trigger_value : Option String := none
  trigger_timestamp : ℕ := 0
  fdc_request_id : Option String := none
  fdc_attestation_type : Option String := none
  fdc_merkle_root : Option String := none
  fdc_verified : Bool := false
  fdc_verification_timestamp : Option ℕ := none
  ftso_price_usd : Option ℚ := none
  ftso_timestamp : Option ℕ := none
  payout_amount : ℚ
  payout_currency : String := "USDT"
  payout_address : String := ""
  rejection_reason : Option String := none
  error_message : Option String := none
  verified_at : Option ℕ := none
  approved_at : Option ℕ := none
  paid_at : Option ℕ := none
deriving DecidableEq, Repr

/-- `models/pool.py` `InsurancePool`: the numeric state mutated by the pool
manager. -/
structure InsurancePool where
  id : ℕ
  total_value_locked : ℚ := 0
  total_premiums_collected : ℚ := 0
  total_payouts_made : ℚ := 0
  stablecoin_reserve : ℚ := 0
  fasset_reserve : ℚ := 0
  collateralization_ratio : ℚ := 150
  total_policies_issued : ℕ := 0
  total_claims_paid : ℕ := 0
deriving DecidableEq, Repr

/-- `models/pool.py` `PoolTransactionType` (the two variants the embedded
operations create). -/
inductive PoolTransactionType
  | premiumDeposit
  | payout
deriving DecidableEq, Repr

/-- `models/pool.py` `PoolTransaction`: the record built by
`deposit_premium`. -/
structure PoolTransaction where
  pool_id : ℕ
  transaction_type : PoolTransactionType
  amount : ℚ
  currency : String
  user_id : ℕ
  policy_id : Option ℕ := none
  claim_id : Option ℕ := none
deriving DecidableEq, Repr

/-- The database session: one list of rows per table. -/
structure DB where
  policies : List Policy
  claims : List Claim
  pools : List InsurancePool
  transactions : List PoolTransaction := []
deriving DecidableEq, Repr

/-- In-place update of the rows whose key is `i` (ORM attribute assignment
on a loaded row, or a SQL `UPDATE ... WHERE id = i`). -/
def updBy {α : Type} (key : α → ℕ) (i : ℕ) (f : α → α) (l : List α) : List α :=
  l.map fun c => if key c == i then f c else c

def DB.setClaim (db : DB) (i : ℕ) (c : Claim) : DB :=
  { db with claims := updBy Claim.id i (fun _ => c) db.claims }

def DB.setPolicy (db : DB) (i : ℕ) (p : Policy) : DB :=
  { db with policies := updBy Policy.id i (fun _ => p) db.policies }

def DB.updatePolicy (db : DB) (i : ℕ) (f : Policy → Policy) : DB :=
  { db with policies := updBy Policy.id i f db.policies }

def DB.setPool (db : DB) (i : ℕ) (p : InsurancePool) : DB :=
  { db with pools := updBy InsurancePool.id i (fun _ => p) db.pools }

def DB.insertClaim (db : DB) (c : Claim) : DB :=
  { db with claims := db.claims ++ [c] }

def DB.insertTransaction (db : DB) (t : PoolTransaction) : DB :=
  { db with transactions := db.transactions ++ [t] }

/-- `SELECT ... WHERE Claim.id == i` + `scalar_one_or_none`. -/
def DB.findClaim (db : DB) (i : ℕ) : Option Claim :=
  db.claims.find? fun c => c.id == i

/-- `SELECT ... WHERE Policy.id == i` + `scalar_one_or_none`. -/
def DB.findPolicy (db : DB) (i : ℕ) : Option Policy :=
  db.policies.find? fun p => p.id == i

/-- `SELECT ... WHERE InsurancePool.id == i` + `scalar_one_or_none`. -/
def DB.findPool (db : DB) (i : ℕ) : Option InsurancePool :=
  db.pools.find? fun p => p.id == i

/-- `core/exceptions.py`: the exceptions raised by the embedded operations,
plus Python's builtin `ValueError` and FastAPI's `HTTPException`. -/
inductive AppError
  | resourceNotFound (resource : String) (id : ℕ)
  | policyNotActive (policy_id : ℕ)
  | policyAlreadyClaimed (policy_id : ℕ)
  | insufficientFunds (required available : ℚ)
  | fdcAttestation (detail : String)
  | ftsoPrice (detail : String)
  | valueError (msg : String)
  | httpError (status_code : ℕ) (detail : String)
deriving DecidableEq, Repr

/-- `str(e)` as recorded into `claim.error_message` by the engine's
`except` handlers. -/
def AppError.message : AppError → String
  | .resourceNotFound r i => r ++ " with id " ++ toString i ++ " not found"
  | .policyNotActive i => "Policy " ++ toString i ++ " is not active"
  | .policyAlreadyClaimed i => "Policy " ++ toString i ++ " has already been claimed"
  | .insufficientFunds req avail =>
      "Insufficient funds: required " ++ toString req ++ ", available " ++ toString avail
  | .fdcAttestation d => "FDC Error: " ++ d
  | .ftsoPrice d => "FTSO Error: " ++ d
  | .valueError m => m
  | .httpError _ d => d

/-- Result of a Python function over the session: either a raised exception
together with the session state at the raise, or the new session state and
the return value. -/
abbrev EngineResult (α : Type) := Except (AppError × DB) (DB × α)

/-- Session state after the call, whether it raised or returned. -/
def postDB {α : Type} : EngineResult α → DB
  | .error (_, db) => db
  | .ok (db, _) => db

namespace PoolManager

/-- `PoolManager.min_collateralization_ratio` (`Decimal("150.0")`). -/
def min_collateralization_ratio : ℚ := 150

/-- `pool_manager.py` `deposit_premium`: credit a premium to the pool and
record the transaction.  The source validates nothing about `amount`. -/
def deposit_premium (db : DB) (pool_id : ℕ) (amount : ℚ)
    (policy_id user_id : ℕ) : EngineResult PoolTransaction :=
  match db.findPool pool_id with
  | none => .error (.valueError ("Pool " ++ toString pool_id ++ " not found"), db)
  | some pool =>
    let pool' := { pool with
      total_value_locked := pool.total_value_locked + amount
      total_premiums_collected := pool.total_premiums_collected + amount
      stablecoin_reserve := pool.stablecoin_reserve + amount
      total_policies_issued := pool.total_policies_issued + 1 }
    let t : PoolTransaction := {
      pool_id := pool_id
      transaction_type := .premiumDeposit
      amount := amount
      currency := "USDT"
      user_id := user_id
      policy_id := some policy_id }
    .ok ((db.setPool pool_id pool').insertTransaction t, t)

/-- The dictionary returned by `pool_manager.py` `process_payout`. -/
structure PayoutInfo where
  pool_id : ℕ
  claim_id : ℕ
  amount : ℚ
  currency : String
  to_address : String
  status : String
deriving DecidableEq, Repr

/-- `pool_manager.py` `process_payout`: the sufficiency check
(`amount > available` raises `InsufficientFundsError`) followed by the four
in-place pool updates.  There is no `amount > 0` check in the source. -/
def process_payout (db : DB) (pool_id : ℕ) (amount : ℚ)
    (claim_id : ℕ) (to_address : String) : EngineResult PayoutInfo :=
  match db.findPool pool_id with
  | none => .error (.valueError ("Pool " ++ toString pool_id ++ " not found"), db)
  | some pool =>
    let available := pool.stablecoin_reserve
    if amount > available then
      .error (.insufficientFunds amount available, db)
    else
      let pool' := { pool with
        stablecoin_reserve := pool.stablecoin_reserve - amount
        total_value_locked := pool.total_value_locked - amount
        total_payouts_made := pool.total_payouts_made + amount
        total_claims_paid := pool.total_claims_paid + 1 }
      .ok (db.setPool pool_id pool',
        { pool_id := pool_id
          claim_id := claim_id
          amount := amount
          currency := "USDT"
          to_address := to_address
          status := "pending_tx" })

/-- The numeric part of the dictionary returned by `get_pool_stats`. -/
structure PoolStats where
  total_value_locked : ℚ
  total_premiums_collected : ℚ
  total_payouts_made : ℚ
  stablecoin_reserve : ℚ
  fasset_reserve : ℚ
  collateralization_ratio : ℚ
  total_policies_issued : ℕ
  total_claims_paid : ℕ
  utilization_rate : ℚ
  available_for_claims : ℚ
deriving DecidableEq, Repr

/-- `pool_manager.py` `get_pool_stats` on a pool that was found: the
derived utilization rate and availability snapshot. -/
def pool_stats (pool : InsurancePool) : PoolStats :=
  let available := pool.total_value_locked - pool.total_payouts_made
  let pending_obligations := pool.total_premiums_collected - pool.total_payouts_made
  let utilization_rate :=
    if pool.total_value_locked > 0 then
      pending_obligations / pool.total_value_locked * 100
    else 0
  { total_value_locked := pool.total_value_locked
    total_premiums_collected := pool.total_premiums_collected
    total_payouts_made := pool.total_payouts_made
    stablecoin_reserve := pool.stablecoin_reserve
    fasset_reserve := pool.fasset_reserve
    collateralization_ratio := pool.collateralization_ratio
    total_policies_issued := pool.total_policies_issued
    total_claims_paid := pool.total_claims_paid
    utilization_rate := utilization_rate
    available_for_claims := available }

/-- `get_pool_stats` including the not-found case. -/
def get_pool_stats (db : DB) (pool_id : ℕ) : Option PoolStats :=
  (db.findPool pool_id).map pool_stats

/-- The three warning strings appended by `check_pool_health`, carrying the
data interpolated into each f-string. -/
inductive HealthWarning
  | collateralizationBelowMinimum (minimum : ℚ)
  | highUtilizationRate (rate : ℚ)
  | lowStablecoinReserves
deriving DecidableEq, Repr

/-- The dictionary returned by `check_pool_health` on a pool that was
found. -/
structure HealthReport where
  is_healthy : Bool
  collateralization_ratio : ℚ
  minimum_ratio : ℚ
  available_for_claims : ℚ
  utilization_rate : ℚ
  risk_level : String
  warnings : List HealthWarning
deriving DecidableEq, Repr

/-- `pool_manager.py` `check_pool_health`: one warning per failed
threshold, then `risk_level` from the warning count.  `none` is the
`{"healthy": False, "error": "Pool not found"}` branch. -/
def check_pool_health (db : DB) (pool_id : ℕ) : Option HealthReport :=
  match get_pool_stats db pool_id with
  | none => none
  | some stats =>
    let warnings : List HealthWarning :=
      (if stats.collateralization_ratio < min_collateralization_ratio then
        [HealthWarning.collateralizationBelowMinimum min_collateralization_ratio]
       else []) ++
      (if stats.utilization_rate > 80 then
        [HealthWarning.highUtilizationRate stats.utilization_rate]
       else []) ++
      (if stats.stablecoin_reserve < 10000 then
        [HealthWarning.lowStablecoinReserves]
       else [])
    let is_healthy := warnings.length == 0
    let risk_level :=
      if warnings.length ≥ 2 then "high"
      else if warnings.length == 1 then "medium"
      else "low"
    some
      { is_healthy := is_healthy
        collateralization_ratio := stats.collateralization_ratio
        minimum_ratio := min_collateralization_ratio
        available_for_claims := stats.available_for_claims
        utilization_rate := stats.utilization_rate
        risk_level := risk_level
        warnings := warnings }

end PoolManager

namespace FDCClient

/-- `fdc_client.py` `verify_proof`: the structural stub — false exactly
when the merkle root or the proof list is empty (Python falsiness). -/
def verify_proof (merkle_root : String) (proof : List String) : Bool :=
  if merkle_root = "" ∨ proof = [] then false else true

/-- `fdc_client.py` `get_request_status` `status_map`: attestation status
code to status string, `"unknown"` for unmapped codes. -/
def status_map (code : ℕ) : String :=
  if code = 0 then "pending"
  else if code = 1 then "submitted"
  else if code = 2 then "voting"
  else if code = 3 then "finalized"
  else if code = 4 then "failed"
  else "unknown"

/-- Default `timeout_seconds` of `poll_until_finalized`. -/
def default_timeout_seconds : ℕ := 180

/-- Default `poll_interval` of `poll_until_finalized`. -/
def default_poll_interval : ℕ := 10

/-- The `while datetime.now() < deadline` loop of `poll_until_finalized`,
idealized to discrete time: the status read is instantaneous and each
`asyncio.sleep(poll_interval)` advances the clock by exactly
`poll_interval` seconds, so at the `k`-th iteration the elapsed time is
`k * poll_interval`.  `statusAt k` is the attestation status code the hub
reports at the `k`-th poll.  The explicit fuel makes the function total;
`none` means the fuel ran out before the loop exited. -/
def pollLoop (statusAt : ℕ → ℕ) (request_id : String)
    (timeout_seconds poll_interval : ℕ) : ℕ → ℕ → Option (Except String String)
  | 0, _ => none
  | fuel + 1, k =>
    if k * poll_interval < timeout_seconds then
      let s := status_map (statusAt k)
      if s = "finalized" then some (.ok s)
      else if s = "failed" then
        some (.error ("Request " ++ request_id ++ " failed"))
      else pollLoop statusAt request_id timeout_seconds poll_interval fuel (k + 1)
    else
      some (.error ("Request " ++ request_id ++ " did not finalize within " ++
        toString timeout_seconds ++ "s"))

/-- `fdc_client.py` `poll_until_finalized`: run the polling loop with fuel
`timeout_seconds + 1`, which theorem `poll_until_finalized_bounded` shows
is never exhausted when the poll interval is positive. -/
def poll_until_finalized (statusAt : ℕ → ℕ) (request_id : String)
    (timeout_seconds poll_interval : ℕ) : Option (Except String String) :=
  pollLoop statusAt request_id timeout_seconds poll_interval (timeout_seconds + 1) 0

end FDCClient

namespace ClaimsEngine

/-- The nondeterministic inputs of `initiate_claim`: the generated claim
number, the fresh primary key the insert receives, and the clock. -/
structure InitiateEnv where
  claim_number : String
  new_claim_id : ℕ
  now : ℕ
deriving DecidableEq, Repr

/-- `claims_engine.py` `initiate_claim`: load and check the policy, create
the claim with `payout_amount = policy.coverage_amount`, and move the
policy to `PAYOUT_PENDING`, all before the single `flush`. -/
def initiate_claim (db : DB) (env : InitiateEnv) (policy_id user_id : ℕ)
    (trigger_event : String) (trigger_value : Option String)
    (payout_address : String) : EngineResult Claim :=
  match db.findPolicy policy_id with
  | none => .error (.resourceNotFound "Policy" policy_id, db)
  | some policy =>
    if policy.user_id ≠ user_id then
      .error (.resourceNotFound "Policy" policy_id, db)
    else if policy.status ≠ .active then
      .error (.policyNotActive policy_id, db)
    else if policy.status = .claimed ∨ policy.status = .paid then
      .error (.policyAlreadyClaimed policy_id, db)
    else
      let claim : Claim := {
        id := env.new_claim_id
        claim_number := env.claim_number
        user_id := user_id
        policy_id := policy_id
        status := .initiated
        trigger_event := trigger_event
        trigger_value := trigger_value
        trigger_timestamp := env.now
        payout_amount := policy.coverage_amount
        payout_currency := policy.currency
        payout_address := payout_address }
      let db := db.insertClaim claim
      let db := db.setPolicy policy_id { policy with status := .payoutPending }
      .ok (db, claim)

/-- The merkle root and proof list returned by `fdc_client.get_proof`. -/
structure FDCProof where
  merkle_root : String
  proof : List String
deriving DecidableEq, Repr

/-- The outcomes of the external FDC round-trip made inside
`verify_claim_with_fdc`, one per fallible call site (each failure is an
`FDCAttestationError` message), plus the clock. -/
structure FDCEnv where
  submit : Except String String
  poll : Except String Unit
  get_proof : Except String FDCProof
  now : ℕ

/-- The dictionary returned by `verify_claim_with_fdc`. -/
structure VerificationResult where
  is_verified : Bool
  fdc_request_id : Option String
  merkle_root : Option String
  error_message : Option String
deriving DecidableEq, Repr

/-- `claims_engine.py` `verify_claim_with_fdc`: load claim and policy,
unconditionally set the claim to `VERIFYING`, run the FDC round-trip, and
approve or reject on the structural proof check; any
`FDCAttestationError` moves the claim to `FAILED` and is swallowed into
the returned dictionary.  The source performs no status precondition check
and no delay-vs-threshold comparison. -/
def verify_claim_with_fdc (db : DB) (env : FDCEnv) (claim_id : ℕ) :
    EngineResult VerificationResult :=
  match db.findClaim claim_id with
  | none => .error (.resourceNotFound "Claim" claim_id, db)
  | some claim =>
  match db.findPolicy claim.policy_id with
  | none => .error (.resourceNotFound "Policy" claim.policy_id, db)
  | some _policy =>
    let claim := { claim with status := ClaimStatus.verifying }
    let db := db.setClaim claim_id claim
    match env.submit with
    | .error e =>
      let claim := { claim with status := .failed, error_message := some e }
      .ok (db.setClaim claim_id claim,
        { is_verified := false
          fdc_request_id := claim.fdc_request_id
          merkle_root := none
          error_message := some e })
    | .ok request_id =>
    let claim := { claim with
      fdc_request_id := some request_id
      fdc_attestation_type := some "EVMTransaction" }
    let db := db.setClaim claim_id claim
    match env.poll with
    | .error e =>
      let claim := { claim with status := .failed, error_message := some e }
      .ok (db.setClaim claim_id claim,
        { is_verified := false
          fdc_request_id := claim.fdc_request_id
          merkle_root := none
          error_message := some e })
    | .ok _ =>
    match env.get_proof with
    | .error e =>
      let claim := { claim with status := .failed, error_message := some e }
      .ok (db.setClaim claim_id claim,
        { is_verified := false
          fdc_request_id := claim.fdc_request_id
          merkle_root := none
          error_message := some e })
    | .ok proof =>
      let is_valid := FDCClient.verify_proof proof.merkle_root proof.proof
      if is_valid then
        let claim := { claim with
          fdc_merkle_root := some proof.merkle_root
          fdc_verified := true
          fdc_verification_timestamp := some env.now
          status := ClaimStatus.approved
          verified_at := some env.now
          approved_at := some env.now }
        .ok (db.setClaim claim_id claim,
          { is_verified := true
            fdc_request_id := some request_id
            merkle_root := some proof.merkle_root
            error_message := none })
      else
        let claim := { claim with
          fdc_verified := false
          status := ClaimStatus.rejected
          rejection_reason := some "FDC proof verification failed" }
        .ok (db.setClaim claim_id claim,
          { is_verified := false
            fdc_request_id := some request_id
            merkle_root := some proof.merkle_root
            error_message := some "Verification failed" })

/-- The outcome of the FTSO price read made inside `process_payout`, plus
the clock. -/
structure PayoutEnv where
  ftso_usdt_usd : Except String ℚ
  now : ℕ

/-- The dictionary returned by `claims_engine.py` `process_payout`. -/
structure PayoutOutcome where
  success : Bool
  claim_id : ℕ
  payout_amount : Option ℚ := none
  payout_address : Option String := none
  ftso_price_usd : Option ℚ := none
  error : Option String := none
deriving DecidableEq, Repr

/-- `claims_engine.py` `process_payout`: require `APPROVED` (else raise
`ValueError`), move to `PROCESSING`, then run the FTSO read, the pool
debit and the policy update inside `try/except Exception`: any failure
there moves the claim to `FAILED`, records the message and returns
`success = False` instead of raising. -/
def process_payout (db : DB) (env : PayoutEnv) (claim_id pool_id : ℕ) :
    EngineResult PayoutOutcome :=
  match db.findClaim claim_id with
  | none => .error (.resourceNotFound "Claim" claim_id, db)
  | some claim =>
  if claim.status ≠ ClaimStatus.approved then
    .error (.valueError ("Claim " ++ toString claim_id ++ " is not approved for payout"), db)
  else
    let claim := { claim with status := ClaimStatus.processing }
    let db := db.setClaim claim_id claim
    match env.ftso_usdt_usd with
    | .error e =>
      let msg := AppError.message (.ftsoPrice e)
      let claim := { claim with status := .failed, error_message := some msg }
      .ok (db.setClaim claim_id claim,
        { success := false, claim_id := claim_id, error := some msg })
    | .ok usdt_price =>
    let claim := { claim with
      ftso_price_usd := some usdt_price
      ftso_timestamp := some env.now }
    let db := db.setClaim claim_id claim
    match PoolManager.process_payout db pool_id claim.payout_amount claim_id
        claim.payout_address with
    | .error (err, dbe) =>
      let msg := err.message
      let claim := { claim with status := .failed, error_message := some msg }
      .ok (dbe.setClaim claim_id claim,
        { success := false, claim_id := claim_id, error := some msg })
    | .ok (db, _payout_info) =>
      let claim := { claim with status := ClaimStatus.paid, paid_at := some env.now }
      let db := db.setClaim claim_id claim
      let db := db.updatePolicy claim.policy_id fun policy =>
        { policy with
          status := PolicyStatus.paid
          payout_amount := some claim.payout_amount
          paid_at := some env.now
          payout_address := some claim.payout_address }
      .ok (db,
        { success := true
          claim_id := claim_id
          payout_amount := some claim.payout_amount
          payout_address := some claim.payout_address
          ftso_price_usd := some usdt_price })

end ClaimsEngine

/-- `api/v1/triggers.py` `FDCWebhookPayload`: the payload fields the
handler reads.  `response_result_delay_minutes` is
`payload.response_data["result"]["delay_minutes"]` when that path is
present (`flight_data.get("delay_minutes", 0)` defaults it to `0`). -/
structure FDCWebhookPayload where
  request_id : String
  attestation_type : String
  merkle_root : String
  response_result_delay_minutes : Option ℤ
  finalized_at : ℕ
deriving DecidableEq, Repr

/-- The JSON body returned by the webhook handler. -/
structure WebhookResponse where
  status : String
  claim_id : ℕ
  claim_status : ClaimStatus
deriving DecidableEq, Repr

/-- `api/v1/triggers.py` `fdc_finalization_webhook`: find the claim by FDC
request id (404 if absent), stamp the FDC data onto it, and — for
`Web2Json` attestations only — approve iff the reported delay reaches the
policy threshold, otherwise reject with
`f"Delay of {delay_minutes} minutes below threshold"`. -/
def fdc_finalization_webhook (db : DB) (payload : FDCWebhookPayload) :
    EngineResult WebhookResponse :=
  match db.claims.find? (fun c => c.fdc_request_id == some payload.request_id) with
  | none => .error (.httpError 404 "Claim not found for this FDC request", db)
  | some claim =>
    let claim := { claim with
      fdc_merkle_root := some payload.merkle_root
      fdc_verified := true
      fdc_verification_timestamp := some payload.finalized_at }
    if payload.attestation_type = "Web2Json" then
      let delay_minutes : ℤ := payload.response_result_delay_minutes.getD 0
      match db.findPolicy claim.policy_id with
      | some policy =>
        if delay_minutes ≥ policy.delay_threshold_minutes then
          let claim := { claim with status := ClaimStatus.approved }
          .ok (db.setClaim claim.id claim,
            { status := "processed", claim_id := claim.id, claim_status := claim.status })
        else
          let claim := { claim with
            status := ClaimStatus.rejected
            rejection_reason :=
              some ("Delay of " ++ toString delay_minutes ++ " minutes below threshold") }
          .ok (db.setClaim claim.id claim,
            { status := "processed", claim_id := claim.id, claim_status := claim.status })
      | none =>
        let claim := { claim with
          status := ClaimStatus.rejected
          rejection_reason :=
            some ("Delay of " ++ toString delay_minutes ++ " minutes below threshold") }
        .ok (db.setClaim claim.id claim,
          { status := "processed", claim_id := claim.id, claim_status := claim.status })
    else
      .ok (db.setClaim claim.id claim,
        { status := "processed", claim_id := claim.id, claim_status := claim.status })

/-- `api/v1/claims.py` `verify_claim` (the `POST /{claim_id}/verify`
route), with authentication resolved to the caller's `user_id`: load the
claim scoped to the user (404 if absent), reject with a 400 unless the
status is `INITIATED` or `VERIFYING`, then delegate to
`ClaimsEngine.verify_claim_with_fdc`. -/
def verify_claim_route (db : DB) (env : ClaimsEngine.FDCEnv)
    (user_id claim_id : ℕ) : EngineResult ClaimsEngine.VerificationResult :=
  match db.claims.find? (fun c => c.id == claim_id && c.user_id == user_id) with
  | none => .error (.httpError 404 "Claim not found", db)
  | some claim =>
    if claim.status ≠ ClaimStatus.initiated ∧ claim.status ≠ ClaimStatus.verifying then
      .error (.httpError 400 "Cannot verify claim with this status", db)
    else
      ClaimsEngine.verify_claim_with_fdc db env claim_id

/-- The post-creation operations of the engine that touch claim records:
oracle verification (which approves or rejects), the finalization webhook,
payout execution, and premium deposits.  Used to state that no operation
after `initiate_claim` ever rewrites a claim's `payout_amount`. -/
inductive EngineOp
  | verify (env : ClaimsEngine.FDCEnv) (claim_id : ℕ)
  | webhook (payload : FDCWebhookPayload)
  | payout (env : ClaimsEngine.PayoutEnv) (claim_id pool_id : ℕ)
  | deposit (pool_id : ℕ) (amount : ℚ) (policy_id user_id : ℕ)

/-- Session state after running one engine operation (raised or not). -/
def runOp (db : DB) : EngineOp → DB
  | .verify env claim_id => postDB (ClaimsEngine.verify_claim_with_fdc db env claim_id)
  | .webhook payload => postDB (fdc_finalization_webhook db payload)
  | .payout env claim_id pool_id => postDB (ClaimsEngine.process_payout db env claim_id pool_id)
  | .deposit pool_id amount policy_id user_id =>
      postDB (PoolManager.deposit_premium db pool_id amount policy_id user_id)

/-- Session state after running a sequence of engine operations. -/
def runOps (db : DB) (ops : List EngineOp) : DB :=
  ops.foldl runOp db

/-- Between two sessions: the claim table has the same row keys in the
same order, and the `payout_amount` observed for any claim id is
unchanged.  This is the shape every post-creation engine operation
preserves. -/
def ClaimsPreserved (db db' : DB) : Prop :=
  db'.claims.map Claim.id = db.claims.map Claim.id ∧
  ∀ cid : ℕ, (db'.findClaim cid).map Claim.payout_amount =
    (db.findClaim cid).map Claim.payout_amount

/-! ## Concrete fixtures

Small concrete sessions used to evaluate the embedded operations at
explicit inputs. -/

/-- A freshly created pool, all balances zero. -/
def poolZero : InsurancePool := { id := 3 }

/-- A pool holding a 1000.00 USDT stablecoin reserve. -/
def poolFunded : InsurancePool :=
  { id := 3, total_value_locked := 1000, stablecoin_reserve := 1000 }

/-- An active 120-minute-threshold policy covering 500.00 USDT. -/
def policyActive : Policy :=
  { id := 1, user_id := 5, status := .active, coverage_amount := 500,
    delay_threshold_minutes := 120 }

/-- A claim in `VERIFYING` with a submitted FDC request id. -/
def claimVerifying : Claim :=
  { id := 2, claim_number := "CLM-260101-AAA111", user_id := 5, policy_id := 1,
    status := .verifying, fdc_request_id := some "req1", payout_amount := 500 }

/-- A claim that has already reached `PAID`. -/
def claimPaid : Claim :=
  { id := 2, claim_number := "CLM-260101-AAA111", user_id := 5, policy_id := 1,
    status := .paid, payout_amount := 500 }

/-- A claim in `APPROVED`, ready for payout. -/
def claimApproved : Claim :=
  { id := 2, claim_number := "CLM-260101-AAA111", user_id := 5, policy_id := 1,
    status := .approved, payout_amount := 500, payout_address := "0xdest" }

/-- Session with one empty pool and no claims. -/
def dbPoolZero : DB := { policies := [], claims := [], pools := [poolZero] }

/-- Session with the active policy, a verifying claim awaiting its FDC
webhook, and the funded pool. -/
def dbVerifying : DB :=
  { policies := [policyActive], claims := [claimVerifying], pools := [poolFunded] }

/-- Session with the active policy, an already-paid claim and the funded
pool. -/
def dbPaid : DB :=
  { policies := [policyActive], claims := [claimPaid], pools := [poolFunded] }

/-- Session with the active policy, an approved claim and the funded
pool. -/
def dbApproved : DB :=
  { policies := [policyActive], claims := [claimApproved], pools := [poolFunded] }

/-- Session with only the active policy: no claims yet. -/
def dbNoClaims : DB :=
  { policies := [policyActive], claims := [], pools := [poolFunded] }

/-- A webhook payload finalizing a `Web2Json` attestation with a measured
delay of 95 minutes. -/
def payloadDelay95 : FDCWebhookPayload :=
  { request_id := "req1", attestation_type := "Web2Json", merkle_root := "0xroot",
    response_result_delay_minutes := some 95, finalized_at := 7 }

/-- An FDC environment whose submission step fails. -/
def envSubmitFails : ClaimsEngine.FDCEnv :=
  { submit := .error "FDC Error: Submission failed: boom", poll := .ok (),
    get_proof := .error "unused", now := 0 }

/-- An FDC environment in which the whole round-trip succeeds with a
non-empty proof. -/
def envFDCOk : ClaimsEngine.FDCEnv :=
  { submit := .ok "0xreq", poll := .ok (),
    get_proof := .ok { merkle_root := "0xroot", proof := ["0xp0"] }, now := 4 }

/-- A payout environment whose FTSO price read succeeds. -/
def envFtsoOk : ClaimsEngine.PayoutEnv := { ftso_usdt_usd := .ok 1, now := 9 }

/-- The initiate environment for the concrete scenario: fresh claim id 10. -/
def envInitiate : ClaimsEngine.InitiateEnv :=
  { claim_number := "CLM-260101-BBB222", new_claim_id := 10, now := 1 }

/-- The claim `initiate_claim` creates in the concrete scenario. -/
def claimCreated : Claim :=
  { id := 10, claim_number := "CLM-260101-BBB222", user_id := 5, policy_id := 1,
    status := .initiated, trigger_event := "flight_delayed", trigger_value := none,
    trigger_timestamp := 1, payout_amount := 500, payout_currency := "USDT",
    payout_address := "0xdest" }

/-- The session after the concrete `initiate_claim` scenario. -/
def dbAfterInitiate : DB :=
  { policies := [{ policyActive with status := .payoutPending }],
    claims := [claimCreated], pools := [poolFunded] }

/-- Invariant: no pool's stablecoin reserve is negative. -/
def reservesNonneg (db : DB) : Prop :=
  ∀ p ∈ db.pools, 0 ≤ p.stablecoin_reserve

instance (db : DB) : Decidable (reservesNonneg db) := by
  unfold reservesNonneg
  infer_instance

/-! ## Row-update lemmas -/

theorem updBy_map_key {α : Type} (key : α → ℕ) (i : ℕ) (f : α → α) (l : List α)
    (hf : ∀ c, key c = i → key (f c) = i) :
    (updBy key i f l).map key = l.map key := by
  induction l with
  | nil => rfl
  | cons c l ih =>
    simp only [updBy, List.map_cons] at ih ⊢
    by_cases h : key c = i
    · rw [if_pos (by simpa using h), hf c h, h, ih]
    · rw [if_neg (by simpa using h), ih]

theorem find?_updBy_self {α : Type} (key : α → ℕ) (i : ℕ) (f : α → α) (l : List α)
    (hf : ∀ c, key c = i → key (f c) = i) :
    (updBy key i f l).find? (fun c => key c == i) =
      (l.find? (fun c => key c == i)).map f := by
  induction l with
  | nil => rfl
  | cons c l ih =>
    simp only [updBy, List.map_cons, List.find?_cons] at ih ⊢
    by_cases h : key c = i
    · have hb : (key c == i) = true := by simpa using h
      have hb2 : (key (f c) == i) = true := by simpa using hf c h
      rw [if_pos hb]
      simp only [hb, hb2]
      rfl
    · have hb : (key c == i) = false := by simpa using h
      rw [if_neg (by simpa using h)]
      simp only [hb, ih]

theorem find?_updBy_ne {α : Type} (key : α → ℕ) (i j : ℕ) (f : α → α) (l : List α)
    (hij : j ≠ i) (hf : ∀ c, key c = i → key (f c) = i) :
    (updBy key i f l).find? (fun c => key c == j) =
      l.find? (fun c => key c == j) := by
  induction l with
  | nil => rfl
  | cons c l ih =>
    simp only [updBy, List.map_cons, List.find?_cons] at ih ⊢
    by_cases h : key c = i
    · have h2 : key (f c) = i := hf c h
      have h3 : (key c == j) = false := by
        simp only [beq_eq_false_iff_ne, ne_eq]
        omega
      have h4 : (key (f c) == j) = false := by
        simp only [beq_eq_false_iff_ne, ne_eq]
        omega
      rw [if_pos (by simpa using h)]
      simp only [h3, h4, ih]
    · rw [if_neg (by simpa using h)]
      by_cases hj : key c = j
      · have hb : (key c == j) = true := by simpa using hj
        simp only [hb]
      · have hb : (key c == j) = false := by simpa using hj
        simp only [hb, ih]

theorem find?_append_of_none {α : Type} (p : α → Bool) (l l' : List α)
    (h : l.find? p = none) : (l ++ l').find? p = l'.find? p := by
  induction l with
  | nil => rfl
  | cons c l ih =>
    simp only [List.find?_cons] at h ⊢
    by_cases hc : p c
    · simp [hc] at h
    · simp only [hc] at h ⊢
      simp at hc
      simp [hc, ih h]

theorem findClaim_id (db : DB) (i : ℕ) (c : Claim) (h : db.findClaim i = some c) :
    c.id = i := by
  have := List.find?_some h
  simpa using this

theorem findPolicy_id (db : DB) (i : ℕ) (p : Policy) (h : db.findPolicy i = some p) :
    p.id = i := by
  have := List.find?_some h
  simpa using this

theorem findPool_id (db : DB) (i : ℕ) (p : InsurancePool) (h : db.findPool i = some p) :
    p.id = i := by
  have := List.find?_some h
  simpa using this

theorem findClaim_setClaim_self (db : DB) (i : ℕ) (c' : Claim) (h : c'.id = i) :
    (db.setClaim i c').findClaim i = (db.findClaim i).map (fun _ => c') := by
  simpa [DB.setClaim, DB.findClaim] using
    find?_updBy_self Claim.id i (fun _ => c') db.claims (fun _ _ => h)

theorem findClaim_setClaim_ne (db : DB) (i j : ℕ) (c' : Claim) (hij : j ≠ i)
    (h : c'.id = i) : (db.setClaim i c').findClaim j = db.findClaim j := by
  simpa [DB.setClaim, DB.findClaim] using
    find?_updBy_ne Claim.id i j (fun _ => c') db.claims hij (fun _ _ => h)

theorem setClaim_ids (db : DB) (i : ℕ) (c' : Claim) (h : c'.id = i) :
    (db.setClaim i c').claims.map Claim.id = db.claims.map Claim.id :=
  updBy_map_key Claim.id i (fun _ => c') db.claims (fun _ _ => h)

theorem findPolicy_setPolicy_self (db : DB) (i : ℕ) (p' : Policy) (h : p'.id = i) :
    (db.setPolicy i p').findPolicy i = (db.findPolicy i).map (fun _ => p') := by
  simpa [DB.setPolicy, DB.findPolicy] using
    find?_updBy_self Policy.id i (fun _ => p') db.policies (fun _ _ => h)

theorem findPolicy_updatePolicy_self (db : DB) (i : ℕ) (f : Policy → Policy)
    (hf : ∀ p, p.id = i → (f p).id = i) :
    (db.updatePolicy i f).findPolicy i = (db.findPolicy i).map f := by
  simpa [DB.updatePolicy, DB.findPolicy] using
    find?_updBy_self Policy.id i f db.policies hf

theorem findPool_setPool_self (db : DB) (i : ℕ) (p' : InsurancePool) (h : p'.id = i) :
    (db.setPool i p').findPool i = (db.findPool i).map (fun _ => p') := by
  simpa [DB.setPool, DB.findPool] using
    find?_updBy_self InsurancePool.id i (fun _ => p') db.pools (fun _ _ => h)

/-! ## C2 — the pool debit operation -/

/-- Claim C2 (amended): the pool's debit-payout checks only
`amount ≤ stablecoin_reserve` (the `amount > 0` half of the spec's
precondition is not enforced).  If `amount` exceeds the reserve it raises
`InsufficientFunds{required := amount, available := reserve}` with the
session untouched; otherwise it atomically applies exactly the four pool
updates (reserve and TVL decrease, payouts-made and claims-paid increase)
and touches no other table.  Instantiating at reserve `1000.00`, a payout
of `1000.00` succeeds leaving reserve `0.00`, and a payout of `1.00`
against reserve `0.00` fails with
`InsufficientFunds{required := 1.00, available := 0.00}`. -/
theorem pool_debit_payout_spec (db : DB) (pool_id : ℕ) (amount : ℚ)
    (claim_id : ℕ) (to_address : String) (pool : InsurancePool)
    (h : db.findPool pool_id = some pool) :
    (pool.stablecoin_reserve < amount →
      PoolManager.process_payout db pool_id amount claim_id to_address =
        .error (.insufficientFunds amount pool.stablecoin_reserve, db)) ∧
    (amount ≤ pool.stablecoin_reserve →
      ∃ db', PoolManager.process_payout db pool_id amount claim_id to_address =
          .ok (db',
            { pool_id := pool_id, claim_id := claim_id, amount := amount,
              currency := "USDT", to_address := to_address, status := "pending_tx" }) ∧
        db'.findPool pool_id = some { pool with
          stablecoin_reserve := pool.stablecoin_reserve - amount
          total_value_locked := pool.total_value_locked - amount
          total_payouts_made := pool.total_payouts_made + amount
          total_claims_paid := pool.total_claims_paid + 1 } ∧
        db'.claims = db.claims ∧ db'.policies = db.policies ∧
        db'.transactions = db.transactions) := by
  have hid : pool.id = pool_id := findPool_id db pool_id pool h
  constructor
  · intro hlt
    simp only [PoolManager.process_payout, h]
    rw [if_pos (by exact hlt)]
  · intro hle
    simp only [PoolManager.process_payout, h]
    rw [if_neg (by exact not_lt.mpr hle)]
    refine ⟨_, rfl, ?_, rfl, rfl, rfl⟩
    rw [findPool_setPool_self db pool_id _ (by simpa using hid), h]
    rfl

/-- Claim C2, counterexample: with the empty pool (reserve `0.00`) a debit
of `amount = 0` violates the claimed precondition `amount > 0`, yet the
operation succeeds (no `InsufficientFunds`) and mutates the pool: the
claims-paid counter becomes 1. -/
theorem pool_debit_payout_zero_amount_counterexample :
    ¬ (0 : ℚ) > 0 ∧
    PoolManager.process_payout dbPoolZero 3 0 7 "0xdest" =
      .ok ({ policies := [], claims := [],
             pools := [{ id := 3, total_claims_paid := 1 }], transactions := [] },
           { pool_id := 3, claim_id := 7, amount := 0, currency := "USDT",
             to_address := "0xdest", status := "pending_tx" }) ∧
    (postDB (PoolManager.process_payout dbPoolZero 3 0 7 "0xdest")).pools ≠
      dbPoolZero.pools := by
  have heq : PoolManager.process_payout dbPoolZero 3 0 7 "0xdest" =
      .ok ({ policies := [], claims := [],
             pools := [{ id := 3, total_claims_paid := 1 }], transactions := [] },
           { pool_id := 3, claim_id := 7, amount := 0, currency := "USDT",
             to_address := "0xdest", status := "pending_tx" }) := by
    simp only [PoolManager.process_payout,
      show dbPoolZero.findPool 3 = some poolZero from rfl]
    rw [if_neg (by decide)]
    simp [DB.setPool, dbPoolZero, poolZero, updBy, InsurancePool.mk.injEq,
      PoolManager.PayoutInfo.mk.injEq, DB.mk.injEq]
  refine ⟨by norm_num, heq, ?_⟩
  rw [heq]
  simp only [postDB]
  decide

/-- Claim C2, witness: the two-step scenario.  The first application of
`pool_debit_payout_spec` pays `1000.00` out of the funded pool and leaves
reserve `0.00`; the second application on the resulting session shows a
`1.00` payout failing with `InsufficientFunds{required := 1, available := 0}`. -/
theorem pool_debit_payout_spec_witness :
    (∃ db', PoolManager.process_payout dbNoClaims 3 1000 2 "0xdest" =
        .ok (db',
          { pool_id := 3, claim_id := 2, amount := 1000, currency := "USDT",
            to_address := "0xdest", status := "pending_tx" }) ∧
      db'.findPool 3 =
        some { id := 3, total_payouts_made := 1000, total_claims_paid := 1 } ∧
      db'.claims = dbNoClaims.claims ∧ db'.policies = dbNoClaims.policies) ∧
    PoolManager.process_payout
        (postDB (PoolManager.process_payout dbNoClaims 3 1000 2 "0xdest")) 3 1 8 "0xdest" =
      .error (.insufficientFunds 1 0,
        postDB (PoolManager.process_payout dbNoClaims 3 1000 2 "0xdest")) := by
  have hfind : dbNoClaims.findPool 3 = some poolFunded := rfl
  obtain ⟨db', heq, hpool, hc, hp, ht⟩ :=
    (pool_debit_payout_spec dbNoClaims 3 1000 2 "0xdest" poolFunded hfind).2 (by decide)
  have hpool' : db'.findPool 3 =
      some { id := 3, total_payouts_made := 1000, total_claims_paid := 1 } := by
    rw [hpool]
    norm_num [poolFunded, InsurancePool.mk.injEq]
  have hpost : postDB (PoolManager.process_payout dbNoClaims 3 1000 2 "0xdest") = db' := by
    rw [heq]
    rfl
  have h2 := (pool_debit_payout_spec db' 3 1 8 "0xdest" _ hpool').1 (by decide)
  exact ⟨⟨db', heq, hpool', hc, hp⟩, by rw [hpost]; exact h2⟩

/-! ## C4 — the reserve non-negativity invariant -/

/-- Claim C4 (amended): starting from any session whose pools all have a
non-negative stablecoin reserve, the debit-payout operation preserves the
invariant for every input whatsoever (the sufficiency check is a hard
precondition), and the credit-premium operation preserves it for every
non-negative amount.  The restriction on deposits is necessary: the source
validates nothing, so a negative deposit amount drives the reserve
negative (see the counterexample). -/
theorem reserve_nonneg_spec (db : DB) (h : reservesNonneg db) :
    (∀ (pool_id : ℕ) (amount : ℚ) (claim_id : ℕ) (to_address : String),
      reservesNonneg (postDB (PoolManager.process_payout db pool_id amount claim_id to_address))) ∧
    (∀ (pool_id : ℕ) (amount : ℚ) (policy_id user_id : ℕ), 0 ≤ amount →
      reservesNonneg (postDB (PoolManager.deposit_premium db pool_id amount policy_id user_id))) := by
  constructor
  · intro pid amount cid addr
    cases hf : db.findPool pid with
    | none => simpa [PoolManager.process_payout, hf, postDB] using h
    | some pool =>
      by_cases hgt : amount > pool.stablecoin_reserve
      · simp only [PoolManager.process_payout, hf]
        rw [if_pos hgt]
        simpa [postDB] using h
      · simp only [PoolManager.process_payout, hf]
        rw [if_neg hgt]
        simp only [postDB]
        intro p hp
        simp only [DB.setPool, updBy, List.mem_map] at hp
        obtain ⟨q, hq, hqe⟩ := hp
        split at hqe
        · rw [← hqe]
          simpa using sub_nonneg.mpr (not_lt.mp hgt)
        · rw [← hqe]
          exact h q hq
  · intro pid amount pol uid hamt
    cases hf : db.findPool pid with
    | none => simpa [PoolManager.deposit_premium, hf, postDB] using h
    | some pool =>
      have hmem : pool ∈ db.pools := List.mem_of_find?_eq_some hf
      simp only [PoolManager.deposit_premium, hf, postDB]
      intro p hp
      simp only [DB.insertTransaction, DB.setPool, updBy, List.mem_map] at hp
      obtain ⟨q, hq, hqe⟩ := hp
      split at hqe
      · rw [← hqe]
        simpa using add_nonneg (h pool hmem) hamt
      · rw [← hqe]
        exact h q hq

/-- Claim C4, counterexample: `deposit_premium` accepts a negative amount
(`-1.00`) on the empty pool and leaves `stablecoin_reserve = -1 < 0`, so
the invariant does not hold over all inputs the operations accept. -/
theorem deposit_negative_counterexample :
    reservesNonneg dbPoolZero ∧
    ¬ reservesNonneg (postDB (PoolManager.deposit_premium dbPoolZero 3 (-1) 1 5)) := by
  have heq : PoolManager.deposit_premium dbPoolZero 3 (-1) 1 5 =
      .ok ({ policies := [], claims := [],
             pools := [{ id := 3, total_value_locked := -1,
                         total_premiums_collected := -1, stablecoin_reserve := -1,
                         total_policies_issued := 1 }],
             transactions := [{ pool_id := 3, transaction_type := .premiumDeposit,
                                amount := -1, currency := "USDT", user_id := 5,
                                policy_id := some 1 }] },
           { pool_id := 3, transaction_type := .premiumDeposit, amount := -1,
             currency := "USDT", user_id := 5, policy_id := some 1 }) := by
    simp only [PoolManager.deposit_premium,
      show dbPoolZero.findPool 3 = some poolZero from rfl]
    simp [DB.setPool, DB.insertTransaction, dbPoolZero, poolZero, updBy,
      InsurancePool.mk.injEq, PoolTransaction.mk.injEq, DB.mk.injEq]
  refine ⟨by decide, ?_⟩
  rw [heq]
  simp only [postDB]
  decide

/-- Claim C4, witness: the invariant theorem applied to the empty-pool
session, for a zero-amount payout and a positive premium deposit. -/
theorem reserve_nonneg_spec_witness :
    reservesNonneg dbPoolZero ∧
    reservesNonneg (postDB (PoolManager.process_payout dbPoolZero 3 0 7 "0xdest")) ∧
    reservesNonneg (postDB (PoolManager.deposit_premium dbPoolZero 3 5 1 5)) :=
  ⟨by decide,
   (reserve_nonneg_spec dbPoolZero (by decide)).1 3 0 7 "0xdest",
   (reserve_nonneg_spec dbPoolZero (by decide)).2 3 5 1 5 (by norm_num)⟩

/-! ## C3 — repeated payout on an already-paid claim -/

/-- Claim C3 (amended): calling the engine's `process_payout` on a claim
whose status is already `PAID` is not a no-op success: it raises
`ValueError("Claim {id} is not approved for payout")` with the session —
pool balances included — exactly as it was.  The pool is therefore never
double-debited, but the operation fails instead of returning the prior
result. -/
theorem process_payout_paid_claim_raises (db : DB) (env : ClaimsEngine.PayoutEnv)
    (claim_id pool_id : ℕ) (claim : Claim)
    (h : db.findClaim claim_id = some claim) (hst : claim.status = .paid) :
    ClaimsEngine.process_payout db env claim_id pool_id =
      .error (.valueError ("Claim " ++ toString claim_id ++ " is not approved for payout"), db) := by
  simp only [ClaimsEngine.process_payout, h]
  rw [if_pos (by rw [hst]; decide)]

/-- Claim C3, counterexample: on the session whose claim 2 is `PAID`, a
second `process_payout` returns a raised `ValueError`, not a success
carrying the prior result; the error carries the unchanged session. -/
theorem process_payout_paid_claim_counterexample :
    ClaimsEngine.process_payout dbPaid envFtsoOk 2 3 =
      .error (.valueError "Claim 2 is not approved for payout", dbPaid) := by
  simp only [ClaimsEngine.process_payout, show dbPaid.findClaim 2 = some claimPaid from rfl]
  rw [if_pos (by decide)]
  rfl

/-- Claim C3, witness: the amended theorem applied to the concrete
already-paid claim. -/
theorem process_payout_paid_claim_raises_witness :
    (dbPaid.findClaim 2 = some claimPaid ∧ claimPaid.status = .paid) ∧
    ClaimsEngine.process_payout dbPaid envFtsoOk 2 3 =
      .error (.valueError "Claim 2 is not approved for payout", dbPaid) :=
  ⟨⟨rfl, rfl⟩, process_payout_paid_claim_raises dbPaid envFtsoOk 2 3 claimPaid rfl rfl⟩

/-! ## C9 — pool health report -/

/-- Claim C9 (confirmed): for every existing pool, the health check emits
exactly one warning per failed threshold (collateralization below the 150%
minimum, utilization above 80%, stablecoin reserve below the fixed 10000
floor), derives `risk_level` as high when at least 2 warnings are present,
medium when exactly 1 and low when none, and `is_healthy` holds exactly
when there are zero warnings. -/
theorem check_pool_health_spec (db : DB) (pool_id : ℕ) (pool : InsurancePool)
    (h : db.findPool pool_id = some pool) :
    ∃ report, PoolManager.check_pool_health db pool_id = some report ∧
      ((PoolManager.HealthWarning.collateralizationBelowMinimum
          PoolManager.min_collateralization_ratio ∈ report.warnings) ↔
        (PoolManager.pool_stats pool).collateralization_ratio <
          PoolManager.min_collateralization_ratio) ∧
      ((∃ r, PoolManager.HealthWarning.highUtilizationRate r ∈ report.warnings) ↔
        (PoolManager.pool_stats pool).utilization_rate > 80) ∧
      ((PoolManager.HealthWarning.lowStablecoinReserves ∈ report.warnings) ↔
        (PoolManager.pool_stats pool).stablecoin_reserve < 10000) ∧
      report.warnings.length =
        ((if (PoolManager.pool_stats pool).collateralization_ratio <
            PoolManager.min_collateralization_ratio then 1 else 0) +
         (if (PoolManager.pool_stats pool).utilization_rate > 80 then 1 else 0) +
         (if (PoolManager.pool_stats pool).stablecoin_reserve < 10000 then 1 else 0)) ∧
      report.risk_level =
        (if 2 ≤ report.warnings.length then "high"
         else if report.warnings.length = 1 then "medium" else "low") ∧
      (report.is_healthy = true ↔ report.warnings.length = 0) := by
  refine ⟨_, by simp only [PoolManager.check_pool_health, PoolManager.get_pool_stats, h,
    Option.map]; rfl, ?_⟩
  by_cases h1 : (PoolManager.pool_stats pool).collateralization_ratio <
      PoolManager.min_collateralization_ratio <;>
    by_cases h2 : (PoolManager.pool_stats pool).utilization_rate > 80 <;>
      by_cases h3 : (PoolManager.pool_stats pool).stablecoin_reserve < 10000 <;>
        simp [h1, h2, h3]

/-- Claim C9, witness: the health-check theorem applied to the empty pool,
whose only failed threshold is the reserve floor. -/
theorem check_pool_health_spec_witness :
    dbPoolZero.findPool 3 = some poolZero ∧
    (∃ report, PoolManager.check_pool_health dbPoolZero 3 = some report ∧
      ((PoolManager.HealthWarning.collateralizationBelowMinimum
          PoolManager.min_collateralization_ratio ∈ report.warnings) ↔
        (PoolManager.pool_stats poolZero).collateralization_ratio <
          PoolManager.min_collateralization_ratio) ∧
      ((∃ r, PoolManager.HealthWarning.highUtilizationRate r ∈ report.warnings) ↔
        (PoolManager.pool_stats poolZero).utilization_rate > 80) ∧
      ((PoolManager.HealthWarning.lowStablecoinReserves ∈ report.warnings) ↔
        (PoolManager.pool_stats poolZero).stablecoin_reserve < 10000) ∧
      report.warnings.length =
        ((if (PoolManager.pool_stats poolZero).collateralization_ratio <
            PoolManager.min_collateralization_ratio then 1 else 0) +
         (if (PoolManager.pool_stats poolZero).utilization_rate > 80 then 1 else 0) +
         (if (PoolManager.pool_stats poolZero).stablecoin_reserve < 10000 then 1 else 0)) ∧
      report.risk_level =
        (if 2 ≤ report.warnings.length then "high"
         else if report.warnings.length = 1 then "medium" else "low") ∧
      (report.is_healthy = true ↔ report.warnings.length = 0)) :=
  ⟨rfl, check_pool_health_spec dbPoolZero 3 poolZero rfl⟩

/-! ## C8 — bounded oracle polling -/

/-- Specification of the polling loop by induction on the fuel: with fuel
covering the remaining time budget, the loop always exits with a value,
and that value is the finalized status, the oracle-failure error, or the
timeout error. -/
theorem pollLoop_spec (statusAt : ℕ → ℕ) (request_id : String)
    (timeout_seconds poll_interval : ℕ) :
    ∀ fuel k, timeout_seconds ≤ k * poll_interval + fuel * poll_interval →
    ∃ r, FDCClient.pollLoop statusAt request_id timeout_seconds poll_interval (fuel + 1) k =
        some r ∧
      ((∃ j, FDCClient.status_map (statusAt j) = "finalized" ∧ r = .ok "finalized") ∨
       (∃ j, FDCClient.status_map (statusAt j) = "failed" ∧
          r = .error ("Request " ++ request_id ++ " failed")) ∨
       r = .error ("Request " ++ request_id ++ " did not finalize within " ++
          toString timeout_seconds ++ "s")) := by
  intro fuel
  induction fuel with
  | zero =>
    intro k h
    refine ⟨_, ?_, Or.inr (Or.inr rfl)⟩
    simp only [FDCClient.pollLoop]
    rw [if_neg (by omega)]
  | succ n ih =>
    intro k h
    by_cases hc : k * poll_interval < timeout_seconds
    · by_cases hfin : FDCClient.status_map (statusAt k) = "finalized"
      · refine ⟨.ok "finalized", ?_, Or.inl ⟨k, hfin, rfl⟩⟩
        simp only [FDCClient.pollLoop]
        rw [if_pos hc, if_pos hfin, hfin]
      · by_cases hfail : FDCClient.status_map (statusAt k) = "failed"
        · refine ⟨.error ("Request " ++ request_id ++ " failed"), ?_,
            Or.inr (Or.inl ⟨k, hfail, rfl⟩)⟩
          simp only [FDCClient.pollLoop]
          rw [if_pos hc, if_neg hfin, if_pos hfail]
        · have h' : timeout_seconds ≤ (k + 1) * poll_interval + n * poll_interval := by
            linarith
          obtain ⟨r, hr, hcase⟩ := ih (k + 1) h'
          refine ⟨r, ?_, hcase⟩
          simp only [FDCClient.pollLoop]
          rw [if_pos hc, if_neg hfin, if_neg hfail]
          exact hr
    · refine ⟨_, ?_, Or.inr (Or.inr rfl)⟩
      simp only [FDCClient.pollLoop]
      rw [if_neg hc]

/-- Claim C8 (confirmed): for every positive poll interval (the reference
default is 10 seconds against a 180-second timeout), `poll_until_finalized`
terminates within its fuel bound — it never exhausts the
`timeout_seconds + 1` fuel — and its outcome is exactly one of: the
finalized status (when a poll observes status code 3), the oracle-failure
error (when a poll observes status code 4), or the timeout error once the
deadline elapses.  No execution waits indefinitely. -/
theorem poll_until_finalized_bounded (statusAt : ℕ → ℕ) (request_id : String)
    (timeout_seconds poll_interval : ℕ) (hpos : 0 < poll_interval) :
    ∃ r, FDCClient.poll_until_finalized statusAt request_id timeout_seconds poll_interval =
        some r ∧
      ((∃ j, FDCClient.status_map (statusAt j) = "finalized" ∧ r = .ok "finalized") ∨
       (∃ j, FDCClient.status_map (statusAt j) = "failed" ∧
          r = .error ("Request " ++ request_id ++ " failed")) ∨
       r = .error ("Request " ++ request_id ++ " did not finalize within " ++
          toString timeout_seconds ++ "s")) := by
  have hb : timeout_seconds ≤ 0 * poll_interval + timeout_seconds * poll_interval := by
    have := Nat.mul_le_mul_left timeout_seconds hpos
    simpa using this
  simpa [FDCClient.poll_until_finalized] using
    pollLoop_spec statusAt request_id timeout_seconds poll_interval timeout_seconds 0 hb

/-- Claim C8, witness: the bound applied at the reference defaults (180s
timeout, 10s poll interval) to an oracle that reports `finalized` (status
code 3) at every poll. -/
theorem poll_until_finalized_bounded_witness :
    0 < FDCClient.default_poll_interval ∧
    (∃ r, FDCClient.poll_until_finalized (fun _ => 3) "0xreq"
        FDCClient.default_timeout_seconds FDCClient.default_poll_interval = some r ∧
      ((∃ _j : ℕ, FDCClient.status_map 3 = "finalized" ∧ r = .ok "finalized") ∨
       (∃ _j : ℕ, FDCClient.status_map 3 = "failed" ∧
          r = .error ("Request " ++ "0xreq" ++ " failed")) ∨
       r = .error ("Request " ++ "0xreq" ++ " did not finalize within " ++
          toString FDCClient.default_timeout_seconds ++ "s"))) :=
  ⟨by decide, poll_until_finalized_bounded (fun _ => 3) "0xreq"
    FDCClient.default_timeout_seconds FDCClient.default_poll_interval (by decide)⟩

/-! ## C6 — claim initiation -/

/-- Claim C6 (confirmed): for a policy owned by the caller, if its status
is anything other than `ACTIVE` (for example `PENDING`) then
`initiate_claim` raises `PolicyNotActive` with the session exactly as it
was — no claim row is created and the policy's status is untouched.  When
the policy is `ACTIVE`, one call produces both effects together: the new
claim row exists in `INITIATED` status with `payout_amount` copied from
the policy's coverage, and the policy has moved to `PAYOUT_PENDING` (all
writes precede the single flush, so the step is one logical
transaction). -/
theorem initiate_claim_spec (db : DB) (env : ClaimsEngine.InitiateEnv)
    (policy_id user_id : ℕ) (trigger_event : String) (trigger_value : Option String)
    (payout_address : String) (policy : Policy)
    (hp : db.findPolicy policy_id = some policy)
    (hu : policy.user_id = user_id)
    (hfresh : db.findClaim env.new_claim_id = none) :
    (policy.status ≠ .active →
      ClaimsEngine.initiate_claim db env policy_id user_id trigger_event trigger_value
          payout_address =
        .error (.policyNotActive policy_id, db)) ∧
    (policy.status = .active →
      ∃ db' claim,
        ClaimsEngine.initiate_claim db env policy_id user_id trigger_event trigger_value
            payout_address = .ok (db', claim) ∧
        db'.findClaim env.new_claim_id = some claim ∧
        claim.status = .initiated ∧
        claim.payout_amount = policy.coverage_amount ∧
        claim.payout_currency = policy.currency ∧
        db'.findPolicy policy_id = some { policy with status := .payoutPending }) := by
  have hpid : policy.id = policy_id := findPolicy_id db policy_id policy hp
  constructor
  · intro hna
    simp only [ClaimsEngine.initiate_claim, hp]
    rw [if_neg (by simp [hu]), if_pos hna]
  · intro ha
    simp only [ClaimsEngine.initiate_claim, hp]
    rw [if_neg (by simp [hu]), if_neg (by simp [ha]), if_neg (by rw [ha]; decide)]
    refine ⟨_, _, rfl, ?_, rfl, rfl, rfl, ?_⟩
    · show (db.insertClaim _).findClaim env.new_claim_id = _
      unfold DB.insertClaim DB.findClaim
      rw [find?_append_of_none _ _ _ hfresh]
      simp
    · rw [findPolicy_setPolicy_self _ _ _ (by simpa using hpid)]
      show (db.findPolicy policy_id).map _ = _
      rw [hp]
      rfl

/-- Claim C6, witness: initiating a claim on the concrete active policy
creates claim 10 with the policy's 500.00 coverage as payout amount and
moves the policy to `PAYOUT_PENDING`. -/
theorem initiate_claim_spec_witness :
    (dbNoClaims.findPolicy 1 = some policyActive ∧ policyActive.user_id = 5 ∧
     dbNoClaims.findClaim 10 = none ∧ policyActive.status = .active) ∧
    (∃ db' claim,
      ClaimsEngine.initiate_claim dbNoClaims envInitiate 1 5 "flight_delayed" none
          "0xdest" = .ok (db', claim) ∧
      db'.findClaim 10 = some claim ∧
      claim.status = .initiated ∧
      claim.payout_amount = 500 ∧
      claim.payout_currency = "USDT" ∧
      db'.findPolicy 1 = some { policyActive with status := .payoutPending }) :=
  ⟨⟨rfl, rfl, rfl, rfl⟩,
   (initiate_claim_spec dbNoClaims envInitiate 1 5 "flight_delayed" none "0xdest"
      policyActive rfl rfl rfl).2 rfl⟩

/-! ## C10 — no claim is left stuck in Processing -/

theorem findClaim_congr (db db' : DB) (i : ℕ) (h : db'.claims = db.claims) :
    db'.findClaim i = db.findClaim i := by
  unfold DB.findClaim
  rw [h]

/-- The pool debit raises before any write, so a raised
`InsufficientFunds`/`ValueError` carries the session unchanged. -/
theorem pool_payout_error_db (db : DB) (pid : ℕ) (amount : ℚ) (cid : ℕ) (addr : String)
    (e : AppError) (db' : DB)
    (h : PoolManager.process_payout db pid amount cid addr = .error (e, db')) : db' = db := by
  cases hf : db.findPool pid with
  | none =>
    simp only [PoolManager.process_payout, hf] at h
    simp only [Except.error.injEq, Prod.mk.injEq] at h
    exact h.2.symm
  | some pool =>
    simp only [PoolManager.process_payout, hf] at h
    split at h
    · simp only [Except.error.injEq, Prod.mk.injEq] at h
      exact h.2.symm
    · simp at h

/-- A successful pool debit touches only the pools table. -/
theorem pool_payout_ok_tables (db : DB) (pid : ℕ) (amount : ℚ) (cid : ℕ) (addr : String)
    (db' : DB) (info : PoolManager.PayoutInfo)
    (h : PoolManager.process_payout db pid amount cid addr = .ok (db', info)) :
    db'.claims = db.claims ∧ db'.policies = db.policies := by
  cases hf : db.findPool pid with
  | none =>
    simp only [PoolManager.process_payout, hf] at h
    exact Except.noConfusion h
  | some pool =>
    simp only [PoolManager.process_payout, hf] at h
    split at h
    · exact Except.noConfusion h
    · simp only [Except.ok.injEq, Prod.mk.injEq] at h
      rw [← h.1]
      exact ⟨rfl, rfl⟩

/-- Claim C10 (confirmed): once `process_payout` has moved an approved
claim to `PROCESSING`, no exception from the rest of the operation escapes
to the caller: the call returns normally (`.ok`), and the claim ends in
`PAID` or — on any failure (price feed, pool not found, insufficient
funds) — in `FAILED` with the error message recorded on the claim and
reported with `success = false`.  No execution path leaves the claim in
`PROCESSING`. -/
theorem process_payout_no_stuck_processing (db : DB) (env : ClaimsEngine.PayoutEnv)
    (claim_id pool_id : ℕ) (claim : Claim)
    (h : db.findClaim claim_id = some claim) (ha : claim.status = .approved) :
    ∃ db' out c',
      ClaimsEngine.process_payout db env claim_id pool_id = .ok (db', out) ∧
      db'.findClaim claim_id = some c' ∧
      (c'.status = .paid ∨ c'.status = .failed) ∧
      (out.success = true ↔ c'.status = .paid) ∧
      (c'.status = .failed → ∃ msg, c'.error_message = some msg ∧ out.error = some msg) := by
  have hid : claim.id = claim_id := findClaim_id db claim_id claim h
  have h1 : (db.setClaim claim_id { claim with status := .processing }).findClaim claim_id =
      some { claim with status := .processing } := by
    rw [findClaim_setClaim_self _ _ _ (by simpa using hid), h]
    rfl
  simp only [ClaimsEngine.process_payout, h]
  rw [if_neg (by simp [ha])]
  cases hft : env.ftso_usdt_usd with
  | error e =>
    dsimp only
    have heq : ((db.setClaim claim_id { claim with status := .processing }).setClaim claim_id
        { claim with
          status := .failed
          error_message := some (AppError.ftsoPrice e).message }).findClaim claim_id =
        some { claim with
          status := .failed
          error_message := some (AppError.ftsoPrice e).message } := by
      rw [findClaim_setClaim_self _ _ _ (by simpa using hid), h1]
      rfl
    exact ⟨_, _, _, rfl, heq, Or.inr rfl, by simp, fun _ => ⟨_, rfl, rfl⟩⟩
  | ok price =>
    dsimp only
    have h2 : ((db.setClaim claim_id { claim with status := .processing }).setClaim claim_id
        { claim with
          status := .processing
          ftso_price_usd := some price
          ftso_timestamp := some env.now }).findClaim claim_id =
        some { claim with
          status := .processing
          ftso_price_usd := some price
          ftso_timestamp := some env.now } := by
      rw [findClaim_setClaim_self _ _ _ (by simpa using hid), h1]
      rfl
    cases hpm : PoolManager.process_payout
        ((db.setClaim claim_id { claim with status := .processing }).setClaim claim_id
          { claim with
            status := .processing
            ftso_price_usd := some price
            ftso_timestamp := some env.now }) pool_id claim.payout_amount claim_id
        claim.payout_address with
    | error pr =>
      obtain ⟨e, dbe⟩ := pr
      dsimp only
      have hdbe : dbe = (db.setClaim claim_id { claim with status := .processing }).setClaim
          claim_id { claim with
            status := .processing
            ftso_price_usd := some price
            ftso_timestamp := some env.now } :=
        pool_payout_error_db _ _ _ _ _ _ _ hpm
      have heq : (dbe.setClaim claim_id
          { claim with
            status := .failed
            ftso_price_usd := some price
            ftso_timestamp := some env.now
            error_message := some e.message }).findClaim claim_id =
          some { claim with
            status := .failed
            ftso_price_usd := some price
            ftso_timestamp := some env.now
            error_message := some e.message } := by
        rw [hdbe, findClaim_setClaim_self _ _ _ (by simpa using hid), h2]
        rfl
      exact ⟨_, _, _, rfl, heq, Or.inr rfl, by simp, fun _ => ⟨_, rfl, rfl⟩⟩
    | ok pr =>
      obtain ⟨db3, info⟩ := pr
      dsimp only
      obtain ⟨hcl, hpol⟩ := pool_payout_ok_tables _ _ _ _ _ _ _ hpm
      have heq : ((db3.setClaim claim_id
          { claim with
            status := .paid
            ftso_price_usd := some price
            ftso_timestamp := some env.now
            paid_at := some env.now }).updatePolicy claim.policy_id (fun policy =>
              { policy with
                status := PolicyStatus.paid
                payout_amount := some claim.payout_amount
                paid_at := some env.now
                payout_address := some claim.payout_address })).findClaim claim_id =
          some { claim with
            status := .paid
            ftso_price_usd := some price
            ftso_timestamp := some env.now
            paid_at := some env.now } := by
        show (db3.setClaim claim_id _).findClaim claim_id = _
        rw [findClaim_setClaim_self _ _ _ (by simpa using hid),
          findClaim_congr _ _ _ hcl, h2]
        rfl
      exact ⟨_, _, _, rfl, heq, Or.inl rfl, by simp, by simp⟩

/-- Claim C10, witness: paying out the concrete approved claim returns
normally and leaves the claim in `PAID` (not stuck in `PROCESSING`). -/
theorem process_payout_no_stuck_processing_witness :
    (dbApproved.findClaim 2 = some claimApproved ∧ claimApproved.status = .approved) ∧
    (∃ db' out c',
      ClaimsEngine.process_payout dbApproved envFtsoOk 2 3 = .ok (db', out) ∧
      db'.findClaim 2 = some c' ∧
      (c'.status = .paid ∨ c'.status = .failed) ∧
      (out.success = true ↔ c'.status = .paid) ∧
      (c'.status = .failed → ∃ msg, c'.error_message = some msg ∧ out.error = some msg)) :=
  ⟨⟨rfl, rfl⟩,
   process_payout_no_stuck_processing dbApproved envFtsoOk 2 3 claimApproved rfl rfl⟩

/-! ## C7 — the status guard on oracle verification -/

/-- Claim C7 (amended): the `status ∈ {Initiated, Verifying}` guard lives
in the HTTP route handler, not in the engine: `verify_claim` (the route)
rejects a claim in any other status with a 400 error and an untouched
session, and delegates to the engine exactly when the status is
`INITIATED` or `VERIFYING`.  The engine operation itself
(`verify_claim_with_fdc`) performs no status check and overwrites the
state of whatever claim it is pointed at (see the counterexample). -/
theorem verify_route_guard (db : DB) (env : ClaimsEngine.FDCEnv) (user_id claim_id : ℕ)
    (claim : Claim)
    (h : db.claims.find? (fun c => c.id == claim_id && c.user_id == user_id) = some claim) :
    (claim.status ≠ .initiated ∧ claim.status ≠ .verifying →
      verify_claim_route db env user_id claim_id =
        .error (.httpError 400 "Cannot verify claim with this status", db)) ∧
    ((claim.status = .initiated ∨ claim.status = .verifying) →
      verify_claim_route db env user_id claim_id =
        ClaimsEngine.verify_claim_with_fdc db env claim_id) := by
  simp only [verify_claim_route, h]
  constructor
  · intro hcond
    rw [if_pos hcond]
  · intro hcond
    rw [if_neg (by tauto)]

/-- Claim C7, counterexample: the engine's `verify_claim_with_fdc`, called
directly on a claim whose status is `PAID` (not in
`{Initiated, Verifying}`), does start verification and overwrites the
claim's state — here the submission fails and the `PAID` claim ends up
`FAILED`. -/
theorem engine_verify_ignores_status_counterexample :
    ((dbPaid.findClaim 2).map Claim.status = some ClaimStatus.paid) ∧
    ¬ (ClaimStatus.paid = ClaimStatus.initiated ∨ ClaimStatus.paid = ClaimStatus.verifying) ∧
    ((postDB (ClaimsEngine.verify_claim_with_fdc dbPaid envSubmitFails 2)).findClaim 2).map
        Claim.status = some ClaimStatus.failed := by
  decide

/-- Claim C7, witness: the route guard applied to the paid claim rejects
the request with a 400 error and leaves the session untouched. -/
theorem verify_route_guard_witness :
    (dbPaid.claims.find? (fun c => c.id == 2 && c.user_id == 5) = some claimPaid ∧
     claimPaid.status ≠ .initiated ∧ claimPaid.status ≠ .verifying) ∧
    verify_claim_route dbPaid envSubmitFails 5 2 =
      .error (.httpError 400 "Cannot verify claim with this status", dbPaid) :=
  ⟨⟨rfl, by decide, by decide⟩,
   (verify_route_guard dbPaid envSubmitFails 5 2 claimPaid rfl).1 ⟨by decide, by decide⟩⟩

/-! ## C1 — the delay-vs-threshold decision -/

/-- Claim C1 (amended): the delay-vs-threshold comparison lives in the FDC
finalization webhook (for `Web2Json` attestations), not in the engine's
`verify_claim_with_fdc` (which approves on the structural proof check
alone, never reading the delay).  For a finalized `Web2Json` payload whose
claim and policy exist, the claim transitions to Approved iff the measured
delay reaches the threshold (inclusive `>=`), and otherwise to Rejected
with the reason `"Delay of {delay} minutes below threshold"` — a reason
that cites the measured value but not the threshold. -/
theorem webhook_threshold_spec (db : DB) (payload : FDCWebhookPayload)
    (claim : Claim) (policy : Policy)
    (hc : db.claims.find? (fun c => c.fdc_request_id == some payload.request_id) = some claim)
    (ht : payload.attestation_type = "Web2Json")
    (hp : db.findPolicy claim.policy_id = some policy) :
    ∃ db' resp c',
      fdc_finalization_webhook db payload = .ok (db', resp) ∧
      db'.findClaim claim.id = some c' ∧
      resp.claim_status = c'.status ∧
      (policy.delay_threshold_minutes ≤ payload.response_result_delay_minutes.getD 0 →
        c'.status = .approved) ∧
      (payload.response_result_delay_minutes.getD 0 < policy.delay_threshold_minutes →
        c'.status = .rejected ∧
        c'.rejection_reason = some ("Delay of " ++
          toString (payload.response_result_delay_minutes.getD 0) ++
          " minutes below threshold")) := by
  have hmem : claim ∈ db.claims := List.mem_of_find?_eq_some hc
  have hsome : ∃ u, db.findClaim claim.id = some u := by
    have : (db.claims.find? (fun c => c.id == claim.id)).isSome :=
      List.find?_isSome.mpr ⟨claim, hmem, by simp⟩
    exact Option.isSome_iff_exists.mp this
  obtain ⟨u, hu⟩ := hsome
  simp only [fdc_finalization_webhook, hc]
  rw [if_pos ht]
  simp only [hp]
  by_cases hge : payload.response_result_delay_minutes.getD 0 ≥ policy.delay_threshold_minutes
  · rw [if_pos hge]
    refine ⟨_, _, { claim with
        fdc_merkle_root := some payload.merkle_root
        fdc_verified := true
        fdc_verification_timestamp := some payload.finalized_at
        status := .approved }, rfl, ?_, rfl, fun _ => rfl, fun hlt => absurd hge (by omega)⟩
    exact (findClaim_setClaim_self db claim.id { claim with
        fdc_merkle_root := some payload.merkle_root
        fdc_verified := true
        fdc_verification_timestamp := some payload.finalized_at
        status := .approved } rfl).trans (by rw [hu]; rfl)
  · rw [if_neg hge]
    refine ⟨_, _, { claim with
        fdc_merkle_root := some payload.merkle_root
        fdc_verified := true
        fdc_verification_timestamp := some payload.finalized_at
        status := .rejected
        rejection_reason := some ("Delay of " ++
          toString (payload.response_result_delay_minutes.getD 0) ++
          " minutes below threshold") }, rfl, ?_, rfl,
      fun hge2 => absurd hge2 (by omega), fun _ => ⟨rfl, rfl⟩⟩
    exact (findClaim_setClaim_self db claim.id { claim with
        fdc_merkle_root := some payload.merkle_root
        fdc_verified := true
        fdc_verification_timestamp := some payload.finalized_at
        status := .rejected
        rejection_reason := some ("Delay of " ++
          toString (payload.response_result_delay_minutes.getD 0) ++
          " minutes below threshold") } rfl).trans (by rw [hu]; rfl)

/-- Claim C1, counterexample: with `delay_minutes = 95` against threshold
120 the webhook does reject the claim, but the recorded rejection reason
is exactly `"Delay of 95 minutes below threshold"`: it cites `"95"` and
does not contain `"120"`, contradicting the claimed reason citing both
values. -/
theorem webhook_threshold_counterexample :
    ((postDB (fdc_finalization_webhook dbVerifying payloadDelay95)).findClaim 2).map
        Claim.status = some ClaimStatus.rejected ∧
    ((postDB (fdc_finalization_webhook dbVerifying payloadDelay95)).findClaim 2).map
        Claim.rejection_reason = some (some "Delay of 95 minutes below threshold") ∧
    List.IsInfix "95".data "Delay of 95 minutes below threshold".data ∧
    ¬ List.IsInfix "120".data "Delay of 95 minutes below threshold".data := by
  decide

/-- Claim C1, witness: the webhook theorem applied to the concrete
verifying claim with a 95-minute delay against the 120-minute policy. -/
theorem webhook_threshold_spec_witness :
    (dbVerifying.claims.find? (fun c => c.fdc_request_id == some "req1") =
        some claimVerifying ∧
      payloadDelay95.attestation_type = "Web2Json" ∧
      dbVerifying.findPolicy claimVerifying.policy_id = some policyActive) ∧
    (∃ db' resp c',
      fdc_finalization_webhook dbVerifying payloadDelay95 = .ok (db', resp) ∧
      db'.findClaim claimVerifying.id = some c' ∧
      resp.claim_status = c'.status ∧
      (policyActive.delay_threshold_minutes ≤
          payloadDelay95.response_result_delay_minutes.getD 0 →
        c'.status = .approved) ∧
      (payloadDelay95.response_result_delay_minutes.getD 0 <
          policyActive.delay_threshold_minutes →
        c'.status = .rejected ∧
        c'.rejection_reason = some ("Delay of " ++
          toString (payloadDelay95.response_result_delay_minutes.getD 0) ++
          " minutes below threshold"))) :=
  ⟨⟨rfl, rfl, rfl⟩,
   webhook_threshold_spec dbVerifying payloadDelay95 claimVerifying policyActive rfl rfl rfl⟩

/-! ## C5 — payout amount immutability -/

theorem ClaimsPreserved.of_claims_eq {db db' : DB} (h : db'.claims = db.claims) :
    ClaimsPreserved db db' :=
  ⟨by rw [h], fun cid => by unfold DB.findClaim; rw [h]⟩

theorem ClaimsPreserved.rfl' (db : DB) : ClaimsPreserved db db :=
  ClaimsPreserved.of_claims_eq rfl

theorem ClaimsPreserved.trans {db1 db2 db3 : DB} (h1 : ClaimsPreserved db1 db2)
    (h2 : ClaimsPreserved db2 db3) : ClaimsPreserved db1 db3 :=
  ⟨h2.1.trans h1.1, fun cid => (h2.2 cid).trans (h1.2 cid)⟩

theorem ClaimsPreserved.setClaim (db : DB) (i : ℕ) (u c' : Claim)
    (hu : db.findClaim i = some u) (h1 : c'.id = i)
    (h2 : c'.payout_amount = u.payout_amount) :
    ClaimsPreserved db (db.setClaim i c') := by
  constructor
  · exact setClaim_ids db i c' h1
  · intro cid
    by_cases hcid : cid = i
    · subst hcid
      rw [findClaim_setClaim_self db cid c' h1, hu]
      simp [h2]
    · rw [findClaim_setClaim_ne db i cid c' hcid h1]

theorem ClaimsPreserved.nodup {db db' : DB} (h : ClaimsPreserved db db')
    (hnd : (db.claims.map Claim.id).Nodup) : (db'.claims.map Claim.id).Nodup := by
  rw [h.1]
  exact hnd



theorem findClaim_setClaim_some (db : DB) (i : ℕ) (u c' : Claim)
    (hu : db.findClaim i = some u) (h : c'.id = i) :
    (db.setClaim i c').findClaim i = some c' :=
  (findClaim_setClaim_self db i c' h).trans (by rw [hu]; rfl)

/-- Oracle verification rewrites claim statuses and FDC metadata but
never a claim's `payout_amount`. -/
theorem verify_preserves_claims (db : DB) (env : ClaimsEngine.FDCEnv) (cid : ℕ) :
    ClaimsPreserved db (postDB (ClaimsEngine.verify_claim_with_fdc db env cid)) := by
  cases hc : db.findClaim cid with
  | none =>
    simp only [ClaimsEngine.verify_claim_with_fdc, hc, postDB]
    exact ClaimsPreserved.rfl' db
  | some claim =>
    have hid : claim.id = cid := findClaim_id db cid claim hc
    cases hp : db.findPolicy claim.policy_id with
    | none =>
      simp only [ClaimsEngine.verify_claim_with_fdc, hc, hp, postDB]
      exact ClaimsPreserved.rfl' db
    | some pol =>
      simp only [ClaimsEngine.verify_claim_with_fdc, hc, hp]
      have hC1 : ClaimsPreserved db (db.setClaim cid { claim with status := .verifying }) :=
        ClaimsPreserved.setClaim db cid claim _ hc (by simpa using hid) rfl
      have hf1 : (db.setClaim cid { claim with status := .verifying }).findClaim cid =
          some { claim with status := .verifying } :=
        findClaim_setClaim_some db cid claim _ hc (by simpa using hid)
      cases hs : env.submit with
      | error e =>
        dsimp only [postDB]
        exact hC1.trans
          (ClaimsPreserved.setClaim _ cid _ _ hf1 (by simpa using hid) rfl)
      | ok rid =>
        dsimp only
        have hC2 : ClaimsPreserved db ((db.setClaim cid
            { claim with status := .verifying }).setClaim cid
            { claim with
              status := .verifying
              fdc_request_id := some rid
              fdc_attestation_type := some "EVMTransaction" }) :=
          hC1.trans (ClaimsPreserved.setClaim _ cid _ _ hf1 (by simpa using hid) rfl)
        have hf2 : ((db.setClaim cid { claim with status := .verifying }).setClaim cid
            { claim with
              status := .verifying
              fdc_request_id := some rid
              fdc_attestation_type := some "EVMTransaction" }).findClaim cid =
            some { claim with
              status := .verifying
              fdc_request_id := some rid
              fdc_attestation_type := some "EVMTransaction" } :=
          findClaim_setClaim_some _ cid _ _ hf1 (by simpa using hid)
        cases hpoll : env.poll with
        | error e =>
          dsimp only [postDB]
          exact hC2.trans
            (ClaimsPreserved.setClaim _ cid _ _ hf2 (by simpa using hid) rfl)
        | ok _u =>
          dsimp only
          cases hproof : env.get_proof with
          | error e =>
            dsimp only [postDB]
            exact hC2.trans
              (ClaimsPreserved.setClaim _ cid _ _ hf2 (by simpa using hid) rfl)
          | ok proof =>
            dsimp only
            split
            · dsimp only [postDB]
              exact hC2.trans
                (ClaimsPreserved.setClaim _ cid _ _ hf2 (by simpa using hid) rfl)
            · dsimp only [postDB]
              exact hC2.trans
                (ClaimsPreserved.setClaim _ cid _ _ hf2 (by simpa using hid) rfl)



/-- The finalization webhook approves or rejects but never touches a
claim's `payout_amount`. -/
theorem webhook_preserves_claims (db : DB) (payload : FDCWebhookPayload)
    (hnd : (db.claims.map Claim.id).Nodup) :
    ClaimsPreserved db (postDB (fdc_finalization_webhook db payload)) := by
  cases hw : db.claims.find? (fun c => c.fdc_request_id == some payload.request_id) with
  | none =>
    simp only [fdc_finalization_webhook, hw, postDB]
    exact ClaimsPreserved.rfl' db
  | some w =>
    have hwmem : w ∈ db.claims := List.mem_of_find?_eq_some hw
    have hsome : ∃ u, db.findClaim w.id = some u := by
      have : (db.claims.find? (fun c => c.id == w.id)).isSome :=
        List.find?_isSome.mpr ⟨w, hwmem, by simp⟩
      exact Option.isSome_iff_exists.mp this
    obtain ⟨u, hu⟩ := hsome
    have huw : u = w := by
      have humem : u ∈ db.claims := List.mem_of_find?_eq_some hu
      have huid : u.id = w.id := findClaim_id _ _ _ hu
      exact List.inj_on_of_nodup_map hnd humem hwmem (by rw [huid])
    simp only [fdc_finalization_webhook, hw]
    by_cases ht : payload.attestation_type = "Web2Json"
    · rw [if_pos ht]
      cases hp : db.findPolicy w.policy_id with
      | some policy =>
        dsimp only
        by_cases hge : payload.response_result_delay_minutes.getD 0 ≥
            policy.delay_threshold_minutes
        · rw [if_pos hge]
          dsimp only [postDB]
          exact ClaimsPreserved.setClaim db w.id u _ hu rfl (by rw [huw])
        · rw [if_neg hge]
          dsimp only [postDB]
          exact ClaimsPreserved.setClaim db w.id u _ hu rfl (by rw [huw])
      | none =>
        dsimp only [postDB]
        exact ClaimsPreserved.setClaim db w.id u _ hu rfl (by rw [huw])
    · rw [if_neg ht]
      dsimp only [postDB]
      exact ClaimsPreserved.setClaim db w.id u _ hu rfl (by rw [huw])

/-- Payout execution moves money in the pool and finalizes statuses but
never rewrites a claim's `payout_amount`. -/
theorem payout_preserves_claims (db : DB) (env : ClaimsEngine.PayoutEnv)
    (cid pid : ℕ) :
    ClaimsPreserved db (postDB (ClaimsEngine.process_payout db env cid pid)) := by
  cases hc : db.findClaim cid with
  | none =>
    simp only [ClaimsEngine.process_payout, hc, postDB]
    exact ClaimsPreserved.rfl' db
  | some claim =>
    have hid : claim.id = cid := findClaim_id db cid claim hc
    simp only [ClaimsEngine.process_payout, hc]
    by_cases hst : claim.status ≠ ClaimStatus.approved
    · rw [if_pos hst]
      dsimp only [postDB]
      exact ClaimsPreserved.rfl' db
    · rw [if_neg hst]
      have hC1 : ClaimsPreserved db (db.setClaim cid { claim with status := .processing }) :=
        ClaimsPreserved.setClaim db cid claim _ hc (by simpa using hid) rfl
      have hf1 : (db.setClaim cid { claim with status := .processing }).findClaim cid =
          some { claim with status := .processing } :=
        findClaim_setClaim_some db cid claim _ hc (by simpa using hid)
      cases hft : env.ftso_usdt_usd with
      | error e =>
        dsimp only [postDB]
        exact hC1.trans (ClaimsPreserved.setClaim _ cid _ _ hf1 (by simpa using hid) rfl)
      | ok price =>
        dsimp only
        have hC2 : ClaimsPreserved db ((db.setClaim cid
            { claim with status := .processing }).setClaim cid
            { claim with
              status := .processing
              ftso_price_usd := some price
              ftso_timestamp := some env.now }) :=
          hC1.trans (ClaimsPreserved.setClaim _ cid _ _ hf1 (by simpa using hid) rfl)
        have hf2 : ((db.setClaim cid { claim with status := .processing }).setClaim cid
            { claim with
              status := .processing
              ftso_price_usd := some price
              ftso_timestamp := some env.now }).findClaim cid =
            some { claim with
              status := .processing
              ftso_price_usd := some price
              ftso_timestamp := some env.now } :=
          findClaim_setClaim_some _ cid _ _ hf1 (by simpa using hid)
        cases hpm : PoolManager.process_payout
            ((db.setClaim cid { claim with status := .processing }).setClaim cid
              { claim with
                status := .processing
                ftso_price_usd := some price
                ftso_timestamp := some env.now }) pid claim.payout_amount cid
            claim.payout_address with
        | error pr =>
          obtain ⟨e, dbe⟩ := pr
          dsimp only [postDB]
          have hdbe : dbe = (db.setClaim cid { claim with status := .processing }).setClaim
              cid { claim with
                status := .processing
                ftso_price_usd := some price
                ftso_timestamp := some env.now } :=
            pool_payout_error_db _ _ _ _ _ _ _ hpm
          rw [hdbe]
          exact hC2.trans (ClaimsPreserved.setClaim _ cid _ _ hf2 (by simpa using hid) rfl)
        | ok pr =>
          obtain ⟨db3, info⟩ := pr
          dsimp only [postDB]
          obtain ⟨hcl, hpol⟩ := pool_payout_ok_tables _ _ _ _ _ _ _ hpm
          have hC3 : ClaimsPreserved db db3 :=
            hC2.trans (ClaimsPreserved.of_claims_eq hcl)
          have hf3 : db3.findClaim cid = some { claim with
              status := .processing
              ftso_price_usd := some price
              ftso_timestamp := some env.now } :=
            (findClaim_congr _ _ _ hcl).trans hf2
          have hC4 : ClaimsPreserved db (db3.setClaim cid { claim with
              status := .paid
              ftso_price_usd := some price
              ftso_timestamp := some env.now
              paid_at := some env.now }) :=
            hC3.trans (ClaimsPreserved.setClaim _ cid _ { claim with
              status := .paid
              ftso_price_usd := some price
              ftso_timestamp := some env.now
              paid_at := some env.now } hf3 (by simpa using hid) rfl)
          exact hC4.trans (ClaimsPreserved.of_claims_eq rfl)

/-- Premium deposits do not touch the claims table at all. -/
theorem deposit_preserves_claims (db : DB) (pid : ℕ) (amount : ℚ)
    (policy_id user_id : ℕ) :
    ClaimsPreserved db (postDB (PoolManager.deposit_premium db pid amount policy_id user_id)) := by
  cases hf : db.findPool pid with
  | none =>
    simp only [PoolManager.deposit_premium, hf, postDB]
    exact ClaimsPreserved.rfl' db
  | some pool =>
    simp only [PoolManager.deposit_premium, hf, postDB]
    exact ClaimsPreserved.of_claims_eq rfl

theorem runOp_preserves_claims (db : DB) (op : EngineOp)
    (hnd : (db.claims.map Claim.id).Nodup) :
    ClaimsPreserved db (runOp db op) := by
  cases op with
  | verify env cid => exact verify_preserves_claims db env cid
  | webhook payload => exact webhook_preserves_claims db payload hnd
  | payout env cid pid => exact payout_preserves_claims db env cid pid
  | deposit pid amount policy_id user_id =>
    exact deposit_preserves_claims db pid amount policy_id user_id

theorem runOps_preserves_claims (ops : List EngineOp) (db : DB)
    (hnd : (db.claims.map Claim.id).Nodup) :
    ClaimsPreserved db (runOps db ops) := by
  induction ops generalizing db with
  | nil => exact ClaimsPreserved.rfl' db
  | cons op ops ih =>
    have h1 := runOp_preserves_claims db op hnd
    exact h1.trans (ih (runOp db op) (h1.nodup hnd))



/-- Claim C5 (confirmed): `initiate_claim` fixes the claim's
`payout_amount` to the policy's coverage amount, and no sequence of
subsequent engine operations — oracle verification (approval/rejection),
the finalization webhook, payout execution, premium deposits — ever
changes the `payout_amount` observed for that claim: at `PAID` it still
equals the value recorded at `INITIATED`.  The claim-id Nodup hypothesis
is the primary-key uniqueness of the claims table. -/
theorem payout_amount_immutable (db : DB) (env : ClaimsEngine.InitiateEnv)
    (policy_id user_id : ℕ) (trigger_event : String) (trigger_value : Option String)
    (payout_address : String) (policy : Policy) (db1 : DB) (claim : Claim)
    (hp : db.findPolicy policy_id = some policy)
    (hnd : (db.claims.map Claim.id).Nodup)
    (hfresh : db.findClaim env.new_claim_id = none)
    (hinit : ClaimsEngine.initiate_claim db env policy_id user_id trigger_event
      trigger_value payout_address = .ok (db1, claim)) :
    claim.payout_amount = policy.coverage_amount ∧
    ∀ ops : List EngineOp,
      ((runOps db1 ops).findClaim claim.id).map Claim.payout_amount =
        some policy.coverage_amount := by
  simp only [ClaimsEngine.initiate_claim, hp] at hinit
  split at hinit
  · simp at hinit
  · split at hinit
    · simp at hinit
    · split at hinit
      · simp at hinit
      · simp only [Except.ok.injEq, Prod.mk.injEq] at hinit
        obtain ⟨hdb1, hclaim⟩ := hinit
        subst hdb1
        subst hclaim
        refine ⟨rfl, ?_⟩
        intro ops
        have hnotin : env.new_claim_id ∉ db.claims.map Claim.id := by
          intro hmem
          obtain ⟨c, hcmem, hcix⟩ := List.mem_map.mp hmem
          have := (List.find?_eq_none.mp hfresh) c hcmem
          simp [hcix] at this
        have hfind1 : ((db.insertClaim
            { id := env.new_claim_id
              claim_number := env.claim_number
              user_id := user_id
              policy_id := policy_id
              status := .initiated
              trigger_event := trigger_event
              trigger_value := trigger_value
              trigger_timestamp := env.now
              payout_amount := policy.coverage_amount
              payout_currency := policy.currency
              payout_address := payout_address }).setPolicy policy_id
            { policy with status := .payoutPending }).findClaim
            env.new_claim_id = some
            { id := env.new_claim_id
              claim_number := env.claim_number
              user_id := user_id
              policy_id := policy_id
              status := .initiated
              trigger_event := trigger_event
              trigger_value := trigger_value
              trigger_timestamp := env.now
              payout_amount := policy.coverage_amount
              payout_currency := policy.currency
              payout_address := payout_address } := by
          show (db.claims ++ [_]).find? _ = _
          rw [find?_append_of_none _ _ _ hfresh]
          simp
        have hnd1 : (((db.insertClaim
            { id := env.new_claim_id
              claim_number := env.claim_number
              user_id := user_id
              policy_id := policy_id
              status := .initiated
              trigger_event := trigger_event
              trigger_value := trigger_value
              trigger_timestamp := env.now
              payout_amount := policy.coverage_amount
              payout_currency := policy.currency
              payout_address := payout_address }).setPolicy policy_id
            { policy with status := .payoutPending }).claims.map
            Claim.id).Nodup := by
          show ((db.claims ++ [_]).map Claim.id).Nodup
          rw [List.map_append, List.nodup_append]
          refine ⟨hnd, by simp, ?_⟩
          intro a ha hb
          simp only [List.map_cons, List.map_nil, List.mem_cons,
            List.not_mem_nil, or_false] at hb
          subst hb
          exact hnotin ha
        have hCP := runOps_preserves_claims ops _ hnd1
        have hx := hCP.2 env.new_claim_id
        rw [hfind1] at hx
        exact hx

/-- Claim C5, witness: the concrete initiation fixes `payout_amount` to
the 500.00 coverage, and it is still observed unchanged after running the
finalization webhook on the resulting session. -/
theorem payout_amount_immutable_witness :
    (dbNoClaims.findPolicy 1 = some policyActive ∧
     (dbNoClaims.claims.map Claim.id).Nodup ∧
     dbNoClaims.findClaim 10 = none ∧
     ClaimsEngine.initiate_claim dbNoClaims envInitiate 1 5 "flight_delayed" none
       "0xdest" = .ok (dbAfterInitiate, claimCreated)) ∧
    claimCreated.payout_amount = policyActive.coverage_amount ∧
    ((runOps dbAfterInitiate [EngineOp.webhook payloadDelay95]).findClaim
        claimCreated.id).map Claim.payout_amount = some policyActive.coverage_amount :=
  ⟨⟨rfl, by decide, rfl, rfl⟩,
   (payout_amount_immutable dbNoClaims envInitiate 1 5 "flight_delayed" none "0xdest"
      policyActive dbAfterInitiate claimCreated rfl (by decide) rfl rfl).1,
   (payout_amount_immutable dbNoClaims envInitiate 1 5 "flight_delayed" none "0xdest"
      policyActive dbAfterInitiate claimCreated rfl (by decide) rfl rfl).2
     [EngineOp.webhook payloadDelay95]⟩

end AeroShield
